import Mathlib

/-!
Shallow embedding of the `filestream` input of the beats repository
(package `filestream`): the per-file harvester state machine (`Run`,
`openFile`, `open`, `readFromSource`, `initState`, `isDroppedLine`)
and the observable behaviour of the file identifiers fixed by
`TestFileIdentifier`.

Go `int`/`int64` offsets are modelled as `Int`; byte counts carried by a
reader `Message` (`Bytes`, `Offset`) count actual bytes advanced in the
stream and are modelled as `Nat`.  Line content (`[]byte`) is modelled as
`List Char`; regular-expression matchers (`match.Matcher`) are abstract
predicates `List Char → Bool`.
-/

namespace Filestream

/-- Persisted cursor state of one source: `type state struct { Offset int64 }`. -/
structure state where
  Offset : Int
deriving Repr, DecidableEq

/-- `readerCloserConfig`: the reader-level part of the closer configuration.
The fields are the ones the source manipulates (`OnEOF`, `AfterInterval`);
durations are modelled as `Nat` nanosecond counts. -/
structure readerCloserConfig where
  OnEOF : Bool
  AfterInterval : Nat
deriving Repr, DecidableEq

/-- `stateChangeCloserConfig`: opaque to every claim; it is only ever carried
through unchanged by the harvester, so it is modelled as an abstract token. -/
structure stateChangeCloserConfig where
  token : Nat
deriving Repr, DecidableEq

/-- `closerConfig`: the static close-policy configuration of the input. -/
structure closerConfig where
  Reader : readerCloserConfig
  OnStateChange : stateChangeCloserConfig
deriving Repr, DecidableEq

/-- Line matcher: `match.Matcher` is external; only its `MatchString` is used. -/
abbrev Matcher := List Char → Bool

/-- `readerConfig`: the reader options `open` and `isDroppedLine` consult.
`LineTerminator` is an enumeration token, modelled as `Nat`. -/
structure readerConfig where
  MaxBytes : Nat
  BufferSize : Nat
  LineTerminator : Nat
  IncludeLines : List Matcher
  ExcludeLines : List Matcher

/-- `takeOverConfig`: only its `Enabled` flag is read by the harvester. -/
structure takeOverConfig where
  Enabled : Bool
deriving Repr, DecidableEq

/-- The `filestream` input value built by `configure`.  The encoding factory and
parser configuration are opaque to the claims and omitted from the state; where
they act (`openFile`, stage list) they appear as explicit parameters or tokens. -/
structure filestream where
  readerConfig : readerConfig
  closerConfig : closerConfig
  takeOver : takeOverConfig

/-- OS-level identity of an inode: device plus inode number
(`file.OSState`, external to the snapshot). -/
structure osState where
  device : Nat
  inode : Nat
deriving Repr, DecidableEq

/-- Modelled from the spec: the string rendering of `file.OSState` used in a
native source name; its source is not in the snapshot.  Per the spec the native
key is "derived from OS-level device+inode signature", so the rendering is a
function of exactly those two numbers. -/
def osStateString (s : osState) : String :=
  toString s.inode ++ "-" ++ toString s.device

/-- `loginp.FileDescriptor`: fingerprint plus file info, of which the claims
use the OS state and the size. -/
structure fileDescriptor where
  Fingerprint : String
  osstate : osState
  size : Int
deriving Repr, DecidableEq

/-- `loginp.Operation` values of an `FSEvent`. -/
inductive Operation where
  | opCreate
  | opWrite
  | opRename
  | opDelete
deriving Repr, DecidableEq

/-- `loginp.FSEvent`: filesystem event delivered by the prospector. -/
structure FSEvent where
  NewPath : String
  OldPath : String
  Op : Operation
  Descriptor : fileDescriptor
deriving Repr, DecidableEq

/-- `fileSource`: the source value the harvester runs on. -/
structure fileSource where
  newPath : String
  oldPath : String
  archived : Bool
  truncated : Bool
  desc : fileDescriptor
deriving Repr, DecidableEq

/-- `matchAny`: true when any matcher in the list matches the text. -/
def matchAny (matchers : List Matcher) (text : List Char) : Bool :=
  matchers.any fun m => m text

/-- `isDroppedLine`: a line is dropped when include patterns are configured and
none matches, or when exclude patterns are configured and one matches. -/
def isDroppedLine (inp : filestream) (line : List Char) : Bool :=
  if 0 < inp.readerConfig.IncludeLines.length ∧
      matchAny inp.readerConfig.IncludeLines line = false then
    true
  else if 0 < inp.readerConfig.ExcludeLines.length ∧
      matchAny inp.readerConfig.ExcludeLines line = true then
    true
  else
    false

/-- Stat result of the file being opened: the fields `openFile` consults.
`isNamedPipe` is `fi.Mode()&os.ModeNamedPipe != 0`; `isRegular` is
`fi.Mode().IsRegular()`. -/
structure fileInfo where
  size : Int
  isNamedPipe : Bool
  isRegular : Bool
deriving Repr, DecidableEq

/-- Result of `openFile`: either a failure (carrying the truncated flag that Go
returns alongside the error) or success with the truncated flag and the offset
handed to `initFileOffset`, i.e. the position reading starts from. -/
inductive openFileOutcome where
  | failure (msg : String) (truncated : Bool)
  | success (truncated : Bool) (seekOffset : Int)
deriving Repr, DecidableEq

/-- `openFile`: stat, reject named pipes and non-regular files, compare the
current size against the resumed offset (size < offset marks the file truncated
and resets the offset to 0 — informational log only), seek, then run encoding
detection.  The seek is modelled as succeeding; `encOk` models whether the
encoding factory succeeds. -/
def openFile (encOk : Bool) (fi : fileInfo) (offset : Int) : openFileOutcome :=
  if fi.isNamedPipe = true then
    .failure "named pipes are not supported" false
  else if fi.isRegular = false then
    .failure "tried to open non regular file" false
  else
    let truncated := decide (fi.size < offset)
    let offset := if fi.size < offset then 0 else offset
    if encOk = true then .success truncated offset
    else .failure "initialising encoding failed" truncated

/-- The step of `Run` just after `open` returns: `if truncated { state.Offset = 0 }`. -/
def runStateAfterOpen (s : state) (truncated : Bool) : state :=
  if truncated = true then { Offset := 0 } else s

/-- The closer configuration `open` actually hands to `newFileReader`: for an
archived source whose static configuration does not request close-on-EOF, a
local copy with `OnEOF := true`, the configured `AfterInterval` and the
configured `OnStateChange`; otherwise the static configuration unchanged. -/
def effectiveCloserConfig (fs : fileSource) (cfg : closerConfig) : closerConfig :=
  if fs.archived = true ∧ cfg.Reader.OnEOF = false then
    { Reader := { OnEOF := true, AfterInterval := cfg.Reader.AfterInterval },
      OnStateChange := cfg.OnStateChange }
  else cfg

/-- One stage of the reader pipeline built by `open`, carrying the parameters
the source passes to it.  `debugWrap` is `debug.AppendReaders`; `parsers` is the
externally supplied parser chain. -/
inductive Stage where
  | logFile (closer : closerConfig)
  | debugWrap
  | encode (bufferSize : Nat) (terminator : Nat) (maxBytes : Nat)
  | stripNewline (terminator : Nat)
  | filemeta (path : String) (offset : Int)
  | parsers
  | limit (maxBytes : Nat)
deriving Repr, DecidableEq

/-- The stage list `open` composes over the opened file, in wrapping order
(innermost first, so the last element is the outermost stage whose `Next` the
read loop calls).  Mirrors the body of `open` after `openFile` returns:
reset the local offset on truncation, compute the effective closer config,
set the encode-reader ceiling to `MaxBytes * 4`, and finish with
`NewLimitReader(r, MaxBytes)`. -/
def openPipeline (inp : filestream) (fs : fileSource) (offset0 : Int)
    (truncated : Bool) : List Stage :=
  let offset := if truncated = true then 0 else offset0
  let closerCfg := effectiveCloserConfig fs inp.closerConfig
  let encReaderMaxBytes := inp.readerConfig.MaxBytes * 4
  [Stage.logFile closerCfg,
   Stage.debugWrap,
   Stage.encode inp.readerConfig.BufferSize inp.readerConfig.LineTerminator
     encReaderMaxBytes,
   Stage.stripNewline inp.readerConfig.LineTerminator,
   Stage.filemeta fs.newPath offset,
   Stage.parsers,
   Stage.limit inp.readerConfig.MaxBytes]

/-- `open`: runs `openFile`, then builds the pipeline; on failure it forwards
the error together with the truncated flag (as the Go function does). -/
def openInput (inp : filestream) (encOk : Bool) (fi : fileInfo) (fs : fileSource)
    (offset : Int) : Except (String × Bool) (List Stage × Bool) :=
  match openFile encOk fi offset with
  | .failure e tr => .error (e, tr)
  | .success tr _ => .ok (openPipeline inp fs offset tr, tr)

/-- A record produced by the reader pipeline (`reader.Message`).  `Fields` is
modelled by the two components the harvester touches: the `log.flags` value
(absent or a string list) and the `tags` list.  `Bytes` and `Offset` count
bytes actually advanced in the stream, hence `Nat`.  `IsEmpty` models the
`IsEmpty()` predicate of the external message type. -/
structure Message where
  Content : List Char
  Bytes : Nat
  Offset : Nat
  logFlags : Option (List String)
  tags : List String
  IsEmpty : Bool
deriving Repr, DecidableEq

/-- Modelled from the spec: the final size-limit stage (`readfile.LimitReader`,
source not in the snapshot) — per the spec it "re-clamps to the exact
configured maximum"; over-long content is cut to `maxBytes` and the record is
flagged truncated. -/
def limitReaderNext (maxBytes : Nat) (msg : Message) : Message :=
  if maxBytes < msg.Content.length then
    { msg with Content := msg.Content.take maxBytes,
               logFlags := some (msg.logFlags.getD [] ++ ["truncated"]) }
  else msg

/-- Outcome of `c.Unpack(&state)` for a non-new cursor: the decoded state or a
decode error. -/
inductive cursorData where
  | ok (st : state)
  | fail (e : String)
deriving Repr, DecidableEq

/-- `loginp.Cursor` as `initState` observes it: absent (`IsNew`) or stored data. -/
inductive cursor where
  | new
  | stored (d : cursorData)
deriving Repr, DecidableEq

/-- `c.IsNew()`. -/
def cursor.IsNew : cursor → Bool
  | .new => true
  | .stored _ => false

/-- `c.Unpack(&state)`: returns the decoded state, or an error in which case
the out-parameter keeps the value it already had. -/
def cursorUnpackInto (c : cursor) (prev : state) : state × Option String :=
  match c with
  | .new => (prev, some "cursor is empty")
  | .stored (.ok st) => (st, none)
  | .stored (.fail e) => (prev, some e)

/-- `initState`: the zero state for a new cursor or a truncated source;
otherwise the result of `Unpack` into the zero state, with an unpack error
only logged (the unpacked-so-far state is returned either way). -/
def initState (c : cursor) (s : fileSource) : state :=
  if c.IsNew = true ∨ s.truncated = true then
    { Offset := 0 }
  else
    (cursorUnpackInto c { Offset := 0 }).1

/-- `DefaultIdentifierName` — the native identifier's strategy name. -/
def DefaultIdentifierName : String := "native"

/-- `pathName` — the path identifier's strategy name. -/
def pathName : String := "path"

/-- `fingerprintName` — the fingerprint identifier's strategy name. -/
def fingerprintName : String := "fingerprint"

/-- The `"::"` separator between strategy name and key in a source name. -/
def identitySep : String := "::"

/-- Modelled from the spec: the Path identifier's `GetSource(...).Name()`
(identifier implementations are not under src/; the in-src `TestFileIdentifier`
fixes the expected names).  The key is the literal current path; on Delete the
last known (old) path is used, otherwise — including Rename — the new path. -/
def pathIdentifierSourceName (e : FSEvent) : String :=
  let path := if e.Op = Operation.opDelete then e.OldPath else e.NewPath
  pathName ++ identitySep ++ path

/-- Modelled from the spec: the Fingerprint identifier's `GetSource(...).Name()`
(implementation not under src/): the key is the content-derived fingerprint
supplied by the descriptor. -/
def fingerprintIdentifierSourceName (e : FSEvent) : String :=
  fingerprintName ++ identitySep ++ e.Descriptor.Fingerprint

/-- Modelled from the spec: the Native identifier's `GetSource(...).Name()`
(implementation not under src/): the key is the OS device+inode state string,
suffixed with `"-" ++ suffix` when a non-empty suffix is configured. -/
def nativeIdentifierSourceName (suffix : String) (e : FSEvent) : String :=
  let base := DefaultIdentifierName ++ identitySep ++
    osStateString e.Descriptor.osstate
  if suffix = "" then base else base ++ "-" ++ suffix

/-- The metric counters `readFromSource` touches (`loginp.Metrics`); gauges
that are both incremented and decremented are `Int`. -/
structure Metrics where
  FilesOpened : Nat
  FilesClosed : Nat
  HarvesterOpenFiles : Int
  HarvesterStarted : Nat
  HarvesterClosed : Nat
  MessagesRead : Nat
  MessagesTruncated : Nat
  BytesProcessed : Nat
  EventsProcessed : Nat
  ProcessingErrors : Nat
deriving Repr, DecidableEq

/-- The error classes `readFromSource` distinguishes on a failed `Next()`:
`ErrFileTruncate`, `ErrClosed`, `io.EOF`, and any other read error. -/
inductive readErr where
  | fileTruncate
  | closed
  | eof
  | other (e : String)
deriving Repr, DecidableEq

/-- One outcome of a call to `r.Next()`: exactly one of message or error. -/
inductive nextResult where
  | err (e : readErr)
  | msg (m : Message)
deriving Repr, DecidableEq

/-- Result of a `readFromSource` run: the returned error (`none` = nil), the
final cursor state, the metrics, and the records published together with the
cursor offset passed to `Publish` alongside each. -/
structure loopOutcome where
  retErr : Option String
  finalState : state
  metrics : Metrics
  published : List (Message × Int)
deriving Repr, DecidableEq

/-- `s.Offset += int64(message.Bytes) + int64(message.Offset)` — the cursor
advance performed right after a successful `Next()`. -/
def advanceOffset (s : state) (msg : Message) : state :=
  { s with Offset := s.Offset + (msg.Bytes : Int) + (msg.Offset : Int) }

/-- The metric updates between the cursor advance and the drop checks: count a
"truncated" entry in the record's `log.flags`, then `MessagesRead.Inc()`. -/
def metricsAfterRead (m : Metrics) (msg : Message) : Metrics :=
  let m := match msg.logFlags with
    | some flags =>
        if "truncated" ∈ flags then
          { m with MessagesTruncated := m.MessagesTruncated + 1 }
        else m
    | none => m
  { m with MessagesRead := m.MessagesRead + 1 }

/-- `mapstr.AddTags(message.Fields, []string{"take_over"})` (external): adds
the take-over tag to the record. -/
def addTakeOverTag (msg : Message) : Message :=
  { msg with tags := msg.tags ++ ["take_over"] }

/-- The read loop of `readFromSource` over a finite trace of `Next()` results.
The publisher `pub` returns `none` on success or the publish error.  An
exhausted trace models the cancellation exit (`ctx.Cancelation.Err() != nil`),
which returns nil.  Every read error ends the loop returning nil, counting
non-terminal errors in `ProcessingErrors`; on a message the offset is advanced
first, empty or filtered records are skipped, and a publish failure returns
that error at once. -/
def readLoop (inp : filestream) (pub : Message → state → Option String) :
    List nextResult → state → Metrics → List (Message × Int) → loopOutcome
  | [], s, m, acc =>
      { retErr := none, finalState := s, metrics := m,
        published := acc.reverse }
  | nextResult.err e :: _, s, m, acc =>
      let m := match e with
        | .fileTruncate => m
        | .closed => m
        | .eof => m
        | .other _ =>
            { m with ProcessingErrors := m.ProcessingErrors + 1 }
      { retErr := none, finalState := s, metrics := m,
        published := acc.reverse }
  | nextResult.msg msg :: rest, s, m, acc =>
      let s := advanceOffset s msg
      let m := metricsAfterRead m msg
      if msg.IsEmpty = true ∨ isDroppedLine inp msg.Content = true then
        readLoop inp pub rest s m acc
      else
        let m := { m with BytesProcessed := m.BytesProcessed + msg.Bytes }
        let msg := if inp.takeOver.Enabled = true then addTakeOverTag msg
          else msg
        match pub msg s with
        | some e =>
            { retErr := some e, finalState := s,
              metrics :=
                { m with ProcessingErrors := m.ProcessingErrors + 1 },
              published := acc.reverse }
        | none =>
            readLoop inp pub rest s
              { m with EventsProcessed := m.EventsProcessed + 1 }
              ((msg, s.Offset) :: acc)

/-- `readFromSource`: the open/close milestone counters around the read loop. -/
def readFromSource (inp : filestream) (pub : Message → state → Option String)
    (inputs : List nextResult) (s : state) (m : Metrics) : loopOutcome :=
  let m := { m with FilesOpened := m.FilesOpened + 1,
                    HarvesterOpenFiles := m.HarvesterOpenFiles + 1,
                    HarvesterStarted := m.HarvesterStarted + 1 }
  let out := readLoop inp pub inputs s m []
  { out with metrics :=
      { out.metrics with
          FilesClosed := out.metrics.FilesClosed + 1,
          HarvesterOpenFiles := out.metrics.HarvesterOpenFiles - 1,
          HarvesterClosed := out.metrics.HarvesterClosed + 1 } }

/-- The cursor offsets attached to the published records, in publish order. -/
def publishedOffsets (o : loopOutcome) : List Int :=
  o.published.map Prod.snd

/-- All-zero metrics, for concrete evaluations. -/
def zeroMetrics : Metrics :=
  { FilesOpened := 0, FilesClosed := 0, HarvesterOpenFiles := 0,
    HarvesterStarted := 0, HarvesterClosed := 0, MessagesRead := 0,
    MessagesTruncated := 0, BytesProcessed := 0, EventsProcessed := 0,
    ProcessingErrors := 0 }

/-- A sample non-empty record, for concrete evaluations. -/
def msgA : Message :=
  { Content := ['a'], Bytes := 2, Offset := 0, logFlags := none,
    tags := [], IsEmpty := false }

/-- A sample reader configuration without filters, for concrete evaluations. -/
def sampleReaderConfig : readerConfig :=
  { MaxBytes := 10, BufferSize := 16, LineTerminator := 0,
    IncludeLines := [], ExcludeLines := [] }

/-- A sample closer configuration with the given `OnEOF` flag. -/
def sampleCloser (onEOF : Bool) : closerConfig :=
  { Reader := { OnEOF := onEOF, AfterInterval := 5 },
    OnStateChange := { token := 7 } }

/-- A sample input with the given `OnEOF` flag and no line filters. -/
def sampleInput (onEOF : Bool) : filestream :=
  { readerConfig := sampleReaderConfig, closerConfig := sampleCloser onEOF,
    takeOver := { Enabled := false } }

/-- A sample file descriptor. -/
def sampleDescriptor : fileDescriptor :=
  { Fingerprint := "fp", osstate := { device := 1, inode := 2 }, size := 0 }

/-- A sample source with the given archived flag. -/
def sampleSource (archived : Bool) : fileSource :=
  { newPath := "/var/log/a.log", oldPath := "", archived := archived,
    truncated := false, desc := sampleDescriptor }

end Filestream

namespace Filestream

/-- C4: (stated form, tested below) a line is dropped iff include patterns exist
and none match, or some exclude pattern matches; exclude overrides include. -/
theorem isDroppedLine_iff (inp : filestream) (line : List Char) :
    (isDroppedLine inp line = true ↔
      (inp.readerConfig.IncludeLines ≠ [] ∧
        matchAny inp.readerConfig.IncludeLines line = false) ∨
      matchAny inp.readerConfig.ExcludeLines line = true) ∧
    (matchAny inp.readerConfig.IncludeLines line = true →
      matchAny inp.readerConfig.ExcludeLines line = true →
      isDroppedLine inp line = true) := by
  constructor
  · by_cases hinc : 0 < inp.readerConfig.IncludeLines.length ∧
        matchAny inp.readerConfig.IncludeLines line = false
    · rw [isDroppedLine, if_pos hinc]
      exact ⟨fun _ => Or.inl ⟨List.length_pos.mp hinc.1, hinc.2⟩, fun _ => rfl⟩
    · by_cases hexc : 0 < inp.readerConfig.ExcludeLines.length ∧
          matchAny inp.readerConfig.ExcludeLines line = true
      · rw [isDroppedLine, if_neg hinc, if_pos hexc]
        exact ⟨fun _ => Or.inr hexc.2, fun _ => rfl⟩
      · rw [isDroppedLine, if_neg hinc, if_neg hexc]
        constructor
        · intro h
          exact absurd h (by simp)
        · rintro (⟨hne, hnom⟩ | hm)
          · exact absurd ⟨List.length_pos.mpr hne, hnom⟩ hinc
          · have hlen : 0 < inp.readerConfig.ExcludeLines.length := by
              rcases h : inp.readerConfig.ExcludeLines with _ | ⟨a, l⟩
              · rw [h] at hm
                simp [matchAny] at hm
              · simp
            exact absurd ⟨hlen, hm⟩ hexc
  · intro hinc hexc
    have hlen : 0 < inp.readerConfig.ExcludeLines.length := by
      rcases h : inp.readerConfig.ExcludeLines with _ | ⟨a, l⟩
      · rw [h] at hexc
        simp [matchAny] at hexc
      · simp
    by_cases h1 : 0 < inp.readerConfig.IncludeLines.length ∧
        matchAny inp.readerConfig.IncludeLines line = false
    · rw [isDroppedLine, if_pos h1]
    · rw [isDroppedLine, if_neg h1, if_pos ⟨hlen, hexc⟩]

/-- Witness for C4: with include = match on 'E', exclude = match on 'D', the
line "ED" matches both and is dropped (exclude overrides include). -/
theorem isDroppedLine_iff_witness :
    isDroppedLine
      { readerConfig :=
          { MaxBytes := 10, BufferSize := 16, LineTerminator := 0,
            IncludeLines := [fun l => l.contains 'E'],
            ExcludeLines := [fun l => l.contains 'D'] },
        closerConfig :=
          { Reader := { OnEOF := false, AfterInterval := 0 },
            OnStateChange := { token := 0 } },
        takeOver := { Enabled := false } }
      ['E', 'D'] = true :=
  (isDroppedLine_iff _ _).2 (by decide) (by decide)

/-- C1: opening a regular, non-pipe file whose current size is strictly below
the resumed cursor offset reports truncation and restarts reading at offset 0
(and `Run` resets the state offset to 0); with size at least the offset,
reading resumes at that offset and the truncated flag is false. -/
theorem openFile_truncation (fi : fileInfo) (offset : Int) (s : state)
    (hpipe : fi.isNamedPipe = false) (hreg : fi.isRegular = true) :
    (fi.size < offset →
      openFile true fi offset = .success true 0 ∧
      runStateAfterOpen s true = { Offset := 0 }) ∧
    (offset ≤ fi.size →
      openFile true fi offset = .success false offset ∧
      runStateAfterOpen s false = s) := by
  constructor
  · intro h
    refine ⟨?_, rfl⟩
    unfold openFile
    simp [hpipe, hreg, h]
  · intro h
    have h' : ¬ fi.size < offset := not_lt.mpr h
    refine ⟨?_, rfl⟩
    unfold openFile
    simp [hpipe, hreg, h']

/-- Witness for C1: size 0, resumed offset 12 — truncated, restart at 0; and
size 20, offset 12 — not truncated, resume at 12. -/
theorem openFile_truncation_witness :
    (openFile true { size := 0, isNamedPipe := false, isRegular := true } 12
        = .success true 0 ∧
      runStateAfterOpen { Offset := 12 } true = { Offset := 0 }) ∧
    (openFile true { size := 20, isNamedPipe := false, isRegular := true } 12
        = .success false 12 ∧
      runStateAfterOpen { Offset := 12 } false = { Offset := 12 }) :=
  ⟨(openFile_truncation { size := 0, isNamedPipe := false, isRegular := true }
      12 { Offset := 12 } rfl rfl).1 (by decide),
   (openFile_truncation { size := 20, isNamedPipe := false, isRegular := true }
      12 { Offset := 12 } rfl rfl).2 (by decide)⟩

/-- C2: the pipeline built by `open` hands the encode stage a byte ceiling of
exactly 4 times the configured maximum record size, installs the limit stage
with exactly that maximum as the last stage, and the limit stage never emits
content longer than the maximum. -/
theorem open_size_policy (inp : filestream) (fs : fileSource) (offset : Int)
    (truncated : Bool) :
    (openPipeline inp fs offset truncated)[2]? =
      some (Stage.encode inp.readerConfig.BufferSize
        inp.readerConfig.LineTerminator (4 * inp.readerConfig.MaxBytes)) ∧
    (openPipeline inp fs offset truncated).getLast? =
      some (Stage.limit inp.readerConfig.MaxBytes) ∧
    ∀ msg : Message,
      (limitReaderNext inp.readerConfig.MaxBytes msg).Content.length ≤
        inp.readerConfig.MaxBytes := by
  refine ⟨?_, ?_, ?_⟩
  · simp [openPipeline, Nat.mul_comm]
  · rfl
  · intro msg
    unfold limitReaderNext
    by_cases h : inp.readerConfig.MaxBytes < msg.Content.length
    · rw [if_pos h]
      simp [List.length_take]
    · rw [if_neg h]
      exact not_lt.mp h

/-- C5: for an archived source whose static closer configuration does not set
close-on-EOF, the effective closer configuration used by `open` sets OnEOF to
true and keeps AfterInterval and OnStateChange; otherwise the static
configuration is used unchanged — and the pipeline's innermost stage receives
exactly this effective configuration. -/
theorem open_archived_closer (inp : filestream) (fs : fileSource)
    (offset : Int) (truncated : Bool) :
    (fs.archived = true → inp.closerConfig.Reader.OnEOF = false →
      effectiveCloserConfig fs inp.closerConfig =
        { Reader := { OnEOF := true,
                      AfterInterval := inp.closerConfig.Reader.AfterInterval },
          OnStateChange := inp.closerConfig.OnStateChange }) ∧
    ((fs.archived = false ∨ inp.closerConfig.Reader.OnEOF = true) →
      effectiveCloserConfig fs inp.closerConfig = inp.closerConfig) ∧
    (openPipeline inp fs offset truncated).head? =
      some (Stage.logFile (effectiveCloserConfig fs inp.closerConfig)) := by
  refine ⟨?_, ?_, rfl⟩
  · intro ha he
    simp [effectiveCloserConfig, ha, he]
  · intro h
    rcases h with h | h <;> simp [effectiveCloserConfig, h]

/-- Witness for C5: archived with OnEOF unset yields the override; not archived
leaves the configuration unchanged. -/
theorem open_archived_closer_witness :
    (effectiveCloserConfig (sampleSource true) (sampleCloser false) =
      { Reader := { OnEOF := true, AfterInterval := 5 },
        OnStateChange := { token := 7 } }) ∧
    (effectiveCloserConfig (sampleSource false) (sampleCloser false) =
      sampleCloser false) := by
  constructor
  · have h := (open_archived_closer (sampleInput false) (sampleSource true)
      0 false).1 rfl rfl
    simpa [sampleInput, sampleCloser] using h
  · have h := (open_archived_closer (sampleInput false) (sampleSource false)
      0 false).2.1 (Or.inl rfl)
    simpa [sampleInput] using h

/-- C6: the Path identifier's name is "path::" plus the new path except on
Delete where the old path is used; the Fingerprint identifier's name is the
fingerprint-prefixed descriptor fingerprint, invariant when the fingerprint is
unchanged; the Native identifier's name depends only on the OS device+inode
state and the configured suffix, hence not on content growth. -/
theorem fileIdentifier_naming :
    (∀ e : FSEvent, e.Op ≠ Operation.opDelete →
      pathIdentifierSourceName e = "path::" ++ e.NewPath) ∧
    (∀ e : FSEvent, e.Op = Operation.opDelete →
      pathIdentifierSourceName e = "path::" ++ e.OldPath) ∧
    (∀ e : FSEvent, fingerprintIdentifierSourceName e =
      "fingerprint::" ++ e.Descriptor.Fingerprint) ∧
    (∀ e e' : FSEvent, e.Descriptor.Fingerprint = e'.Descriptor.Fingerprint →
      fingerprintIdentifierSourceName e = fingerprintIdentifierSourceName e') ∧
    (∀ (suffix : String) (e e' : FSEvent),
      e.Descriptor.osstate = e'.Descriptor.osstate →
      nativeIdentifierSourceName suffix e =
        nativeIdentifierSourceName suffix e') := by
  refine ⟨?_, ?_, ?_, ?_, ?_⟩
  · intro e h
    unfold pathIdentifierSourceName
    rw [if_neg h]
    rfl
  · intro e h
    unfold pathIdentifierSourceName
    rw [if_pos h]
    rfl
  · intro e
    rfl
  · intro e e' h
    unfold fingerprintIdentifierSourceName
    rw [h]
  · intro suffix e e' h
    unfold nativeIdentifierSourceName
    rw [h]

/-- Witness for C6: the test vectors of `TestFileIdentifier` — on Rename the
new path, on Delete the old path, and the fingerprint-keyed name. -/
theorem fileIdentifier_naming_witness :
    pathIdentifierSourceName
      { NewPath := "/new/path/to/file", OldPath := "/old/path/to/file",
        Op := Operation.opRename, Descriptor := sampleDescriptor } =
      "path::/new/path/to/file" ∧
    pathIdentifierSourceName
      { NewPath := "", OldPath := "/old/path/to/file",
        Op := Operation.opDelete, Descriptor := sampleDescriptor } =
      "path::/old/path/to/file" ∧
    fingerprintIdentifierSourceName
      { NewPath := "/path/to/file", OldPath := "",
        Op := Operation.opCreate,
        Descriptor := { Fingerprint := "fingerprintvalue",
                        osstate := { device := 1, inode := 2 }, size := 0 } } =
      "fingerprint::fingerprintvalue" :=
  ⟨fileIdentifier_naming.1 _ (by decide), fileIdentifier_naming.2.1 _ rfl,
   fileIdentifier_naming.2.2.1 _⟩

/-- C10: `initState` yields offset 0 when the cursor is new, when the source is
flagged truncated, and when the stored cursor data fails to unpack (the error
being only logged, the run proceeding from 0); otherwise it returns the stored
offset. -/
theorem initState_zero_cases (c : cursor) (fs : fileSource) :
    ((c.IsNew = true ∨ fs.truncated = true ∨ (∃ e, c = .stored (.fail e))) →
      initState c fs = { Offset := 0 }) ∧
    (∀ st, c = .stored (.ok st) → fs.truncated = false →
      initState c fs = st) := by
  constructor
  · rintro (h | h | ⟨e, rfl⟩)
    · unfold initState
      rw [if_pos (Or.inl h)]
    · unfold initState
      rw [if_pos (Or.inr h)]
    · unfold initState
      by_cases ht : fs.truncated = true
      · rw [if_pos (Or.inr ht)]
      · rw [if_neg]
        · rfl
        · rintro (h1 | h2)
          · simp [cursor.IsNew] at h1
          · exact ht h2
  · rintro st rfl ht
    unfold initState
    rw [if_neg]
    · rfl
    · rintro (h1 | h2)
      · simp [cursor.IsNew] at h1
      · rw [ht] at h2
        cases h2

/-- Witness for C10: a failing unpack proceeds from offset 0; a stored offset
of 42 on an untruncated source is resumed as-is. -/
theorem initState_zero_cases_witness :
    initState (cursor.stored (cursorData.fail "bad")) (sampleSource false) =
      { Offset := 0 } ∧
    initState (cursor.stored (cursorData.ok { Offset := 42 }))
      (sampleSource false) = { Offset := 42 } :=
  ⟨(initState_zero_cases _ _).1 (Or.inr (Or.inr ⟨"bad", rfl⟩)),
   (initState_zero_cases _ _).2 { Offset := 42 } rfl rfl⟩

/-- Helper: the only non-nil return of the read loop is a publish error. -/
theorem readLoop_retErr_of_publish (inp : filestream)
    (pub : Message → state → Option String) :
    ∀ (inputs : List nextResult) (s : state) (m : Metrics)
      (acc : List (Message × Int)),
      (readLoop inp pub inputs s m acc).retErr ≠ none →
      ∃ msg st e, pub msg st = some e ∧
        (readLoop inp pub inputs s m acc).retErr = some e := by
  intro inputs
  induction inputs with
  | nil =>
      intro s m acc h
      simp [readLoop] at h
  | cons hd tl ih =>
      intro s m acc h
      cases hd with
      | err e =>
          simp [readLoop] at h
      | msg msg =>
          by_cases hdrop : msg.IsEmpty = true ∨
              isDroppedLine inp msg.Content = true
          · simp only [readLoop, if_pos hdrop] at h ⊢
            exact ih _ _ _ h
          · simp only [readLoop, if_neg hdrop] at h ⊢
            cases hp : pub
                (if inp.takeOver.Enabled = true then addTakeOverTag msg
                 else msg) (advanceOffset s msg) with
            | some e =>
                refine ⟨_, _, e, hp, ?_⟩
                simp only [hp]
            | none =>
                simp only [hp] at h ⊢
                exact ih _ _ _ h

/-- Helper: published offsets form a non-decreasing chain, given the
accumulator invariant. -/
theorem readLoop_published_chain (inp : filestream)
    (pub : Message → state → Option String) :
    ∀ (inputs : List nextResult) (s : state) (m : Metrics)
      (acc : List (Message × Int)),
      (∀ p ∈ acc, p.2 ≤ s.Offset) →
      List.Chain' (fun a b => b ≤ a) (acc.map Prod.snd) →
      List.Chain' (· ≤ ·)
        ((readLoop inp pub inputs s m acc).published.map Prod.snd) := by
  intro inputs
  induction inputs with
  | nil =>
      intro s m acc hmem hchain
      simp only [readLoop, List.map_reverse]
      exact List.chain'_reverse.mpr hchain
  | cons hd tl ih =>
      intro s m acc hmem hchain
      cases hd with
      | err e =>
          simp only [readLoop, List.map_reverse]
          exact List.chain'_reverse.mpr hchain
      | msg msg =>
          have hadv : s.Offset ≤ (advanceOffset s msg).Offset := by
            simp only [advanceOffset]
            omega
          by_cases hdrop : msg.IsEmpty = true ∨
              isDroppedLine inp msg.Content = true
          · simp only [readLoop, if_pos hdrop]
            exact ih _ _ acc (fun p hp => le_trans (hmem p hp) hadv) hchain
          · simp only [readLoop, if_neg hdrop]
            cases hp : pub
                (if inp.takeOver.Enabled = true then addTakeOverTag msg
                 else msg) (advanceOffset s msg) with
            | some e =>
                simp only [hp, List.map_reverse]
                exact List.chain'_reverse.mpr hchain
            | none =>
                simp only [hp]
                apply ih
                · intro p hp'
                  rcases List.mem_cons.mp hp' with h | h
                  · rw [h]
                  · exact le_trans (hmem p h) hadv
                · rw [List.map_cons, List.chain'_cons']
                  refine ⟨?_, hchain⟩
                  intro y hy
                  cases acc with
                  | nil => simp at hy
                  | cons p t =>
                      simp only [List.map_cons, List.head?_cons,
                        Option.mem_def, Option.some.injEq] at hy
                      rw [← hy]
                      exact le_trans (hmem p (List.mem_cons_self p t)) hadv

/-- C3: a read error of any class ends the loop at once with a nil return; a
non-nil return of `readFromSource` is always a publish error, and a publish
failure aborts the loop immediately (the rest of the trace is irrelevant). -/
theorem readFromSource_error_propagation (inp : filestream)
    (pub : Message → state → Option String) (inputs : List nextResult)
    (s : state) (m : Metrics) :
    (∀ (e : readErr) (rest : List nextResult),
      readFromSource inp pub (nextResult.err e :: rest) s m =
        readFromSource inp pub [nextResult.err e] s m ∧
      (readFromSource inp pub (nextResult.err e :: rest) s m).retErr =
        none) ∧
    ((readFromSource inp pub inputs s m).retErr ≠ none →
      ∃ msg st e, pub msg st = some e ∧
        (readFromSource inp pub inputs s m).retErr = some e) ∧
    (∀ (msg : Message) (rest rest' : List nextResult),
      ¬ (msg.IsEmpty = true ∨ isDroppedLine inp msg.Content = true) →
      pub (if inp.takeOver.Enabled = true then addTakeOverTag msg else msg)
          (advanceOffset s msg) ≠ none →
      readFromSource inp pub (nextResult.msg msg :: rest) s m =
        readFromSource inp pub (nextResult.msg msg :: rest') s m) := by
  refine ⟨fun e rest => ⟨rfl, rfl⟩, ?_, ?_⟩
  · intro h
    exact readLoop_retErr_of_publish inp pub inputs s _ [] h
  · intro msg rest rest' hdrop hpub
    unfold readFromSource
    simp only [readLoop, if_neg hdrop]
    cases hp : pub
        (if inp.takeOver.Enabled = true then addTakeOverTag msg else msg)
        (advanceOffset s msg) with
    | some e => simp only [hp]
    | none => exact absurd hp hpub

/-- Witness for C3: with a publisher that always fails, the run on one
non-empty record returns exactly that publish error. -/
theorem readFromSource_error_propagation_witness :
    ∃ msg st e,
      (fun (_ : Message) (_ : state) => some "pub fail") msg st = some e ∧
      (readFromSource (sampleInput false) (fun _ _ => some "pub fail")
        [nextResult.msg msgA] { Offset := 0 } zeroMetrics).retErr = some e :=
  (readFromSource_error_propagation (sampleInput false)
    (fun _ _ => some "pub fail") [nextResult.msg msgA] { Offset := 0 }
    zeroMetrics).2.1 (by decide)

/-- C7 counterexample: on the trace [non-terminal read error, good record]
with an always-successful publisher, the error is counted but nothing at all
is published — the loop does not continue with the next record (which the
same record alone would have published). -/
theorem readFromSource_processing_error_counterexample :
    (readFromSource (sampleInput false) (fun _ _ => none)
        [nextResult.err (readErr.other "read failure"), nextResult.msg msgA]
        { Offset := 0 } zeroMetrics).published = [] ∧
    (readFromSource (sampleInput false) (fun _ _ => none)
        [nextResult.err (readErr.other "read failure"), nextResult.msg msgA]
        { Offset := 0 } zeroMetrics).metrics.ProcessingErrors = 1 ∧
    (readFromSource (sampleInput false) (fun _ _ => none)
        [nextResult.msg msgA] { Offset := 0 } zeroMetrics).published =
      [(msgA, 2)] := by
  refine ⟨rfl, rfl, ?_⟩
  decide

/-- C7 (amended): a non-terminal read error from `Next()` is counted in the
processing-error metric and the read loop ends with a nil return; the record
is skipped, and no further records are read. -/
theorem readFromSource_processing_error (inp : filestream)
    (pub : Message → state → Option String) (e : String)
    (rest : List nextResult) (s : state) (m : Metrics) :
    (readFromSource inp pub (nextResult.err (readErr.other e) :: rest)
        s m).metrics.ProcessingErrors = m.ProcessingErrors + 1 ∧
    (readFromSource inp pub (nextResult.err (readErr.other e) :: rest)
        s m).retErr = none ∧
    (readFromSource inp pub (nextResult.err (readErr.other e) :: rest)
        s m).published = [] :=
  ⟨rfl, rfl, rfl⟩

/-- C8: the cursor offsets attached to successive published records are
non-decreasing, and the per-record cursor advance never decreases the offset
(byte counts are non-negative). -/
theorem readFromSource_offset_monotone (inp : filestream)
    (pub : Message → state → Option String) (inputs : List nextResult)
    (s : state) (m : Metrics) :
    List.Chain' (· ≤ ·)
      (publishedOffsets (readFromSource inp pub inputs s m)) ∧
    ∀ (st : state) (msg : Message),
      st.Offset ≤ (advanceOffset st msg).Offset := by
  constructor
  · exact readLoop_published_chain inp pub inputs s _ []
      (fun p hp => absurd hp (List.not_mem_nil p)) (by simp)
  · intro st msg
    simp only [advanceOffset]
    omega

/-- C9: the cursor is advanced by the record's consumed bytes before the
empty-record and filter checks — a dropped record leaves the loop in the
advanced state — and a published record is passed to `Publish` together with
the already-advanced state in the same single call. -/
theorem readLoop_advance_before_filter (inp : filestream)
    (pub : Message → state → Option String) (msg : Message)
    (rest : List nextResult) (s : state) (m : Metrics)
    (acc : List (Message × Int)) :
    ((msg.IsEmpty = true ∨ isDroppedLine inp msg.Content = true) →
      readLoop inp pub (nextResult.msg msg :: rest) s m acc =
        readLoop inp pub rest (advanceOffset s msg)
          (metricsAfterRead m msg) acc) ∧
    (¬ (msg.IsEmpty = true ∨ isDroppedLine inp msg.Content = true) →
      pub (if inp.takeOver.Enabled = true then addTakeOverTag msg else msg)
          (advanceOffset s msg) = none →
      readLoop inp pub (nextResult.msg msg :: rest) s m acc =
        readLoop inp pub rest (advanceOffset s msg)
          { metricsAfterRead m msg with
              BytesProcessed :=
                (metricsAfterRead m msg).BytesProcessed + msg.Bytes,
              EventsProcessed :=
                (metricsAfterRead m msg).EventsProcessed + 1 }
          (((if inp.takeOver.Enabled = true then addTakeOverTag msg
             else msg), (advanceOffset s msg).Offset) :: acc)) := by
  constructor
  · intro hdrop
    simp only [readLoop, if_pos hdrop]
  · intro hdrop hpub
    simp only [readLoop, if_neg hdrop, hpub]

/-- Witness for C9: an empty record leaves only the advanced offset behind; a
published record is paired with the advanced offset. -/
theorem readLoop_advance_before_filter_witness :
    readLoop (sampleInput false) (fun _ _ => none)
        [nextResult.msg { msgA with IsEmpty := true }] { Offset := 0 }
        zeroMetrics [] =
      readLoop (sampleInput false) (fun _ _ => none) []
        (advanceOffset { Offset := 0 } { msgA with IsEmpty := true })
        (metricsAfterRead zeroMetrics { msgA with IsEmpty := true }) [] ∧
    readLoop (sampleInput false) (fun _ _ => none)
        [nextResult.msg msgA] { Offset := 5 } zeroMetrics [] =
      readLoop (sampleInput false) (fun _ _ => none) []
        (advanceOffset { Offset := 5 } msgA)
        { metricsAfterRead zeroMetrics msgA with
            BytesProcessed :=
              (metricsAfterRead zeroMetrics msgA).BytesProcessed + msgA.Bytes,
            EventsProcessed :=
              (metricsAfterRead zeroMetrics msgA).EventsProcessed + 1 }
        [((if (sampleInput false).takeOver.Enabled = true
           then addTakeOverTag msgA else msgA),
          (advanceOffset { Offset := 5 } msgA).Offset)] :=
  ⟨(readLoop_advance_before_filter (sampleInput false) (fun _ _ => none)
      { msgA with IsEmpty := true } [] { Offset := 0 } zeroMetrics []).1
      (Or.inl rfl),
   (readLoop_advance_before_filter (sampleInput false) (fun _ _ => none)
      msgA [] { Offset := 5 } zeroMetrics []).2 (by decide) rfl⟩

end Filestream
